import Mathlib

/-!
Formal model of the core of the `xdpilone` AF_XDP user-space library.

Each definition is a shallow embedding of the corresponding Rust item from
`src/`: machine integers (`u32`, `u64`) are modelled as `Nat` with explicit
reduction modulo `2 ^ 32` where the source performs wrapping arithmetic
(release-mode overflow semantics, matching the `wrapping_sub` / `wrapping_add`
calls and the modulo-`2^32` head-counter contract documented on `BufIdx`),
fallible operations return `Except Int _` carrying the raw `errno` value, and
the outcomes of kernel calls (`setsockopt`, `getsockopt`, `mmap`, `bind`) are
passed in explicitly as environment parameters.
-/

namespace Xdpilone

/-- Modulus of the 32-bit machine integers used for ring head counters. -/
def U32_MOD : Nat := 2 ^ 32

/-- Wrapping 32-bit addition, the semantics of `u32::wrapping_add` and of
`+=` on `u32` in a release build. -/
def wadd (a b : Nat) : Nat := (a + b) % U32_MOD

/-- Wrapping 32-bit subtraction, the semantics of `u32::wrapping_sub` and of
`-` on `u32` in a release build. -/
def wsub (a b : Nat) : Nat := (a + (U32_MOD - b % U32_MOD)) % U32_MOD

/-- State of `XskRing` (src/src/xsk.rs): the two cached heads, the mask and
size, and the current values of the two kernel-shared atomic head words.
The slot array and flags pointers are not part of the head-arithmetic model;
slot positions are computed by `fill_addr_index`. -/
structure XskRing where
  cached_producer : Nat
  cached_consumer : Nat
  mask : Nat
  size : Nat
  producer : Nat
  consumer : Nat
deriving DecidableEq, Repr

namespace XskRing

/-- Slot position selected by `XskRingProd::fill_addr` / `tx_desc`
(src/src/xsk/ring.rs:123-133): the buffer index masked by `mask`. -/
def fill_addr_index (r : XskRing) (idx : Nat) : Nat :=
  (idx % U32_MOD) &&& r.mask

/-- `XskRingProd::count_free` (src/src/xsk/ring.rs:139-156). Returns the free
count and the (possibly refreshed) ring state: when the cached free count is
below the minimum, the cached consumer is reloaded from the kernel-shared
consumer word and bumped by `size`. -/
def count_free (r : XskRing) (minimum : Nat) : Nat × XskRing :=
  let free_entries := wsub r.cached_consumer r.cached_producer
  if minimum ≤ free_entries then
    (free_entries, r)
  else
    let cc := wadd r.consumer r.size
    (wsub cc r.cached_producer, { r with cached_consumer := cc })

/-- `XskRingProd::reserve` (src/src/xsk/ring.rs:162-175) over the range
`start..=stop`. Returns the granted count, the out-index (`none` when the
reservation fails and the caller's index variable is left untouched), and the
resulting ring state. -/
def reserve (r : XskRing) (start stop : Nat) : Nat × Option Nat × XskRing :=
  let (free, r1) := count_free r start
  if free < start then
    (0, none, r1)
  else
    let free := min free stop
    (free, some r1.cached_producer,
      { r1 with cached_producer := wadd r1.cached_producer free })

/-- `XskRingProd::submit` (src/src/xsk/ring.rs:191-199): release-store
`producer.wrapping_add nb` into the kernel-shared producer word. -/
def submit (r : XskRing) (nb : Nat) : XskRing :=
  { r with producer := wadd r.producer nb }

/-- `XskRingProd::cancel` (src/src/xsk/ring.rs:180-182): rewind the cached
producer by `nb`. -/
def cancel (r : XskRing) (nb : Nat) : XskRing :=
  { r with cached_producer := wsub r.cached_producer nb }

end XskRing

/-- Slot positions written by `WriteFill::insert` / `WriteTx::insert` when a
reservation of `granted` buffers starting at out-index `base` is fully
consumed: `BufIdxIter` (src/src/xsk/user.rs:191-199) hands out
`base, base+1, ...` with wrapping increment, and each write lands at the
masked position computed by `fill_addr` / `tx_desc`. -/
def slotPositions (r : XskRing) (base granted : Nat) : List Nat :=
  (List.range granted).map fun k => r.fill_addr_index (wadd base k)

/-- Raw `errno` value of `libc::EINVAL` on Linux. -/
def EINVAL : Int := 22

/-- Value of `libc::AF_XDP` on Linux. -/
def AF_XDP : Nat := 44

/-- `UmemConfig`: fill/completion ring sizes, frame (chunk) size, headroom and
flag bits, as carried by `Umem` (fields read in src/src/xsk/umem.rs). -/
structure UmemConfig where
  fill_size : Nat
  complete_size : Nat
  frame_size : Nat
  headroom : Nat
  flags : Nat
deriving DecidableEq, Repr

/-- The `Umem` data relevant to frame accounting: its configuration and the
byte length of the caller-provided `umem_area` (the value of
`ptr_len(self.umem_area.as_ptr()) as u64`). -/
structure Umem where
  config : UmemConfig
  area_size : Nat
deriving DecidableEq, Repr

/-- `u64::checked_sub`: `none` exactly when the subtrahend exceeds the
minuend. -/
def checked_sub (a b : Nat) : Option Nat := if b ≤ a then some (a - b) else none

/-- Rust `Option<u64>` order used in `Umem::frame`: `None < Some(_)` and
`Some(x) < Some(y)` iff `x < y`. `optLtSome a b` is `a < Some(b)`. -/
def optLtSome (a : Option Nat) (b : Nat) : Bool :=
  match a with
  | none => true
  | some x => decide (x < b)

/-- The `UmemChunk` returned by `Umem::frame`: byte offset into the area and
the byte length of the chunk pointer (the pointer itself spans `len` bytes
starting at `offset` within the area). -/
structure UmemChunk where
  offset : Nat
  len : Nat
deriving DecidableEq, Repr

/-- `Umem::frame` (src/src/xsk/umem.rs:107-130): returns the chunk for buffer
index `idx` when `[idx * frame_size, idx * frame_size + frame_size)` fits in
the area, `none` otherwise. The offset is computed exactly in 64-bit
arithmetic (`u64::from(pitch) * u64::from(idx)` cannot overflow). -/
def Umem.frame (u : Umem) (idx : Nat) : Option UmemChunk :=
  let pitch := u.config.frame_size
  let area_size := u.area_size
  let offset := pitch * idx
  if optLtSome (checked_sub area_size pitch) offset then
    none
  else
    some { offset := offset, len := pitch }

/-- `Umem::len_frames` (src/src/xsk/umem.rs:132-137): `area_size / frame_size`
saturated into `u32` by `u32::try_from(count).unwrap_or(u32::MAX)`. -/
def Umem.len_frames (u : Umem) : Nat :=
  min (u.area_size / u.config.frame_size) (U32_MOD - 1)

/-- `IfCtx` (module root of `xsk`): the (interface index, queue id,
namespace cookie) triple keying device queues. -/
structure IfCtx where
  ifindex : Nat
  queue_id : Nat
  netnscookie : Nat
deriving DecidableEq, Repr

/-- Contents of the UMEM's device tracker (`SpinLockedControlSet`,
src/src/xsk/umem.rs:399-426): a duplicate-free set of `IfCtx`, modelled as the
list of elements. -/
abbrev ControlSet := List IfCtx

/-- `ControlSet::insert` via `BTreeSet::insert` under the write lock
(src/src/xsk/umem.rs:412-415): returns whether the value was newly inserted,
together with the updated set. -/
def csInsert (s : ControlSet) (c : IfCtx) : Bool × ControlSet :=
  if c ∈ s then (false, s) else (true, c :: s)

/-- `ControlSet::remove` via `BTreeSet::remove` under the write lock
(src/src/xsk/umem.rs:422-425). -/
def csRemove (s : ControlSet) (c : IfCtx) : ControlSet :=
  List.erase s c

/-- Outcomes of the fallible kernel interactions performed inside
`Umem::fq_cq` after the tracker insertion: `Umem::configure_cq`, the
`SocketMmapOffsets` query, and the fill / completion ring `mmap`s. Payloads
irrelevant to tracker bookkeeping are elided to `Unit`. -/
structure FqCqEnv where
  cq : Except Int Unit
  offsets : Except Int Unit
  fill : Except Int Unit
  comp : Except Int Unit

/-- Predicate deciding that every kernel step of `fq_cq` succeeds. -/
def FqCqEnv.allOk (e : FqCqEnv) : Bool :=
  match e.cq, e.offsets, e.fill, e.comp with
  | .ok _, .ok _, .ok _, .ok _ => true
  | _, _, _, _ => false

/-- `Umem::fq_cq` (src/src/xsk/umem.rs:171-208), tracker-state view. The
first component is the call's result, the second the tracker contents
afterwards. A duplicate `IfCtx` fails with `Errno(libc::EINVAL)` before any
kernel call; on a later failure the `DropableDevice` guard removes the
provisionally inserted `IfCtx`; on success `mem::forget` keeps it. -/
def fq_cq (tracker : ControlSet) (ctx : IfCtx) (env : FqCqEnv) :
    Except Int Unit × ControlSet :=
  match csInsert tracker ctx with
  | (false, s) => (.error EINVAL, s)
  | (true, s) =>
    match env.cq with
    | .error e => (.error e, csRemove s ctx)
    | .ok _ =>
      match env.offsets with
      | .error e => (.error e, csRemove s ctx)
      | .ok _ =>
        match env.fill with
        | .error e => (.error e, csRemove s ctx)
        | .ok _ =>
          match env.comp with
          | .error e => (.error e, csRemove s ctx)
          | .ok _ => (.ok (), s)

/-- `Drop for XskDeviceQueue` (src/src/xsk/user.rs:61-65): removes the
queue's `IfCtx` from the owning UMEM's tracker. -/
def dropDeviceQueue (tracker : ControlSet) (ctx : IfCtx) : ControlSet :=
  csRemove tracker ctx

/-- Modelled from the spec: the `SocketConfig` struct declaration lives in the
`xsk` module root, which is not under `src/`; per the spec (§4.2 receive /
transmit preparation) it carries an optional receive size, an optional
transmit size and bind flag bits, matching its uses in `Umem::bind`,
`Umem::configure_rt` and `User::map_rx` / `User::map_tx`. -/
structure SocketConfig where
  rx_size : Option Nat
  tx_size : Option Nat
  bind_flags : Nat
deriving DecidableEq, Repr

/-- `SocketConfig::XDP_BIND_SHARED_UMEM` (src/src/xsk/umem.rs:388). -/
def XDP_BIND_SHARED_UMEM : Nat := 1

/-- `SocketConfig::XDP_BIND_COPY` (src/src/xsk/umem.rs:390). -/
def XDP_BIND_COPY : Nat := 2

/-- `SockAddrXdp` (src/src/xdp.rs:101-112). -/
structure SockAddrXdp where
  family : Nat
  flags : Nat
  ifindex : Nat
  queue_id : Nat
  shared_umem_fd : Nat
deriving DecidableEq, Repr

/-- `Default for SockAddrXdp` (src/src/xdp.rs:140-150): zero except for the
`AF_XDP` family. -/
def SockAddrXdp.defaultVal : SockAddrXdp :=
  { family := AF_XDP, flags := 0, ifindex := 0, queue_id := 0, shared_umem_fd := 0 }

/-- Socket address constructed by `Umem::bind` (src/src/xsk/umem.rs:237-251)
and passed to `libc::bind`: starts from the default, sets the user handle's
interface index and queue id, and only when the user handle's fd differs from
the UMEM's primary fd sets `flags` to the configured bind flags or-ed with
`XDP_BIND_SHARED_UMEM` and stores the UMEM's primary fd. -/
def Umem.bind_sockaddr (umem_fd user_fd : Nat) (ifindex queue_id bind_flags : Nat) :
    SockAddrXdp :=
  let sxdp := { SockAddrXdp.defaultVal with ifindex := ifindex, queue_id := queue_id }
  if user_fd ≠ umem_fd then
    { sxdp with
      flags := bind_flags ||| XDP_BIND_SHARED_UMEM
      shared_umem_fd := umem_fd }
  else
    sxdp

/-- `User::map_rx` (src/src/xsk/umem.rs:358-365), error view: a missing
`rx_size` fails with `Errno(-libc::EINVAL)` before any kernel call; otherwise
the result is that of the `RingCons::rx` mapping, passed in as `rxRes`. -/
def User.map_rx (config : SocketConfig) (rxRes : Except Int Unit) : Except Int Unit :=
  match config.rx_size with
  | none => .error (-EINVAL)
  | some _ =>
    match rxRes with
    | .error e => .error e
    | .ok _ => .ok ()

/-- `User::map_tx` (src/src/xsk/umem.rs:373-380), error view: a missing
`tx_size` fails with `Errno(-libc::EINVAL)` before any kernel call; otherwise
the result is that of the `RingProd::tx` mapping, passed in as `txRes`. -/
def User.map_tx (config : SocketConfig) (txRes : Except Int Unit) : Except Int Unit :=
  match config.tx_size with
  | none => .error (-EINVAL)
  | some _ =>
    match txRes with
    | .error e => .error e
    | .ok _ => .ok ()

/-- `libc::IFNAMSIZ` on Linux. -/
def IFNAMSIZ : Nat := 16

/-- `IfInfo` (module root of `xsk`): an `IfCtx` plus the fixed-size C string
buffer for the interface name, modelled as a byte list of length
`IFNAMSIZ`. -/
structure IfInfo where
  ctx : IfCtx
  ifname : List Nat
deriving DecidableEq, Repr

/-- `IfInfo::invalid` (src/src/xsk/iface.rs:11-20): all-zero context and an
all-NUL name buffer. -/
def IfInfo.invalid : IfInfo :=
  { ctx := { ifindex := 0, queue_id := 0, netnscookie := 0 }
    ifname := List.replicate IFNAMSIZ 0 }

/-- Overwrite the prefix of the name buffer with `bytes`, keeping the rest:
the effect of `self.ifname[..bytes.len()].copy_from_slice(bytes)` and of
`libc::if_indextoname` writing a NUL-terminated name into the buffer. -/
def writeName (buf bytes : List Nat) : List Nat :=
  bytes ++ buf.drop bytes.length

/-- `IfInfo::from_name` (src/src/xsk/iface.rs:26-47). `bytes` are the name's
bytes including the terminating NUL; `kernelIndex` is the result of
`libc::if_nametoindex` (`0` on failure, in which case `osErr` is the errno
read). On success the context is set to `(index, 0, 0)` and the name copied
into the buffer. -/
def IfInfo.from_name (info : IfInfo) (bytes : List Nat) (kernelIndex : Nat)
    (osErr : Int) : Except Int IfInfo :=
  if IFNAMSIZ < bytes.length then
    .error EINVAL
  else if kernelIndex = 0 then
    .error osErr
  else
    .ok { ctx := { ifindex := kernelIndex, queue_id := 0, netnscookie := 0 }
          ifname := writeName info.ifname bytes }

/-- `IfInfo::from_ifindex` (src/src/xsk/iface.rs:52-60). `kernelName` is the
name written by `libc::if_indextoname` for `index` (`none` when the call
returns NULL, in which case `osErr` is the errno read). The source only lets
the kernel write the name buffer and returns `Ok(())`: no field of `self.ctx`
is assigned. -/
def IfInfo.from_ifindex (info : IfInfo) (index : Nat)
    (kernelName : Option (List Nat)) (osErr : Int) : Except Int IfInfo :=
  match kernelName with
  | none => .error osErr
  | some nm => .ok { info with ifname := writeName info.ifname nm }

/-- Observable file-descriptor events of the embedded fragment. -/
inductive FdEvent where
  | getsockopt (fd : Nat)
  | close (fd : Nat)
deriving DecidableEq, Repr

/-- Modelled from the spec: the `Clone` impl of `SocketFd` lives in the `xsk`
module root, which is not under `src/`; the spec (§5 shared state, §9
reference-counted file descriptor) prescribes a plain shared-ownership
wrapper around one fd integer and explicitly rejects duplicating the fd via
the kernel, so cloning the wrapper yields a wrapper around the same fd
integer. -/
def SocketFd.clone (fd : Nat) : Nat := fd

/-- Fd events of `SocketFd::get_opt` (src/src/xsk/socket.rs:55-75): the
method takes `self` by value, performs `libc::getsockopt` on the wrapped fd,
and on returning drops `self`, whose `Drop` impl (src/src/xsk.rs:519-523)
runs `libc::close` on the wrapped fd. -/
def SocketFd.get_opt_events (fd : Nat) : List FdEvent :=
  [FdEvent.getsockopt fd, FdEvent.close fd]

/-- Fd events of the namespace-cookie query in `Socket::with_xdp_socket`
(src/src/xsk/socket.rs:25-33): `<SocketFd as Clone>::clone(&fd).get_opt(...)`
clones the shared fd wrapper and consumes the clone in `get_opt`. -/
def Socket.netns_query_events (fd : Nat) : List FdEvent :=
  SocketFd.get_opt_events (SocketFd.clone fd)

/-- Fd events of the mmap-offsets query (src/src/xsk/iface.rs:121-123):
`sock.clone().get_opt(SOL_XDP, XDP_MMAP_OFFSETS, ..)`. -/
def SocketMmapOffsets.query_events (fd : Nat) : List FdEvent :=
  SocketFd.get_opt_events (SocketFd.clone fd)

/-- Fd events of the statistics query (src/src/xsk/iface.rs:158-160):
`sock.clone().get_opt(SOL_XDP, XDP_STATISTICS, ..)`. -/
def XdpStatistics.query_events (fd : Nat) : List FdEvent :=
  SocketFd.get_opt_events (SocketFd.clone fd)

/-- Operations on a UMEM's device-queue tracker, for the lifetime invariant:
acquiring a device queue via `fq_cq` (with the outcomes of its kernel steps)
and dropping a device queue. -/
inductive QueueOp where
  | acquire (ctx : IfCtx) (env : FqCqEnv)
  | dropQ (ctx : IfCtx)

/-- Joint state of a UMEM's tracker and the list of live device queues
derived from it. -/
structure QueueSysState where
  tracker : ControlSet
  live : List IfCtx

/-- One step of device-queue lifetime: a successful `fq_cq` adds a live queue
with the acquired `IfCtx`; dropping a live queue runs
`Drop for XskDeviceQueue`, removing its `IfCtx` from the tracker. -/
def queueStep (s : QueueSysState) : QueueOp → QueueSysState
  | .acquire ctx env =>
    match fq_cq s.tracker ctx env with
    | (.ok _, tr) => { tracker := tr, live := ctx :: s.live }
    | (.error _, tr) => { tracker := tr, live := s.live }
  | .dropQ ctx =>
    if ctx ∈ s.live then
      { tracker := dropDeviceQueue s.tracker ctx, live := s.live.erase ctx }
    else
      s

/-- Run a sequence of device-queue operations from a state. -/
def queueRun (s : QueueSysState) (ops : List QueueOp) : QueueSysState :=
  ops.foldl queueStep s

/-- Initial state of a fresh UMEM: empty tracker, no live device queue. -/
def queueInit : QueueSysState := { tracker := [], live := [] }

/-- Producer ring seeded for the wrap-around scenario: size 16, cached
producer and real producer at `0xFFFFFFF0`, kernel consumer word already
advanced across the wrap to `0`. -/
def c4Ring : XskRing :=
  { cached_producer := 0xFFFFFFF0, cached_consumer := 0xFFFFFFF0,
    mask := 15, size := 16, producer := 0xFFFFFFF0, consumer := 0 }

/-- Producer ring with all heads at 5 on a size-16 ring: freshly constructed
view of a ring on which 5 slots were ever submitted and consumed. -/
def c8Ring : XskRing :=
  { cached_producer := 5, cached_consumer := 5, mask := 15, size := 16,
    producer := 5, consumer := 5 }

/-- Environment in which every kernel step of `fq_cq` succeeds. -/
def envAllOk : FqCqEnv :=
  { cq := .ok (), offsets := .ok (), fill := .ok (), comp := .ok () }

/-- Environment in which `configure_cq` fails with `errno` 12 (`ENOMEM`). -/
def envCqFail : FqCqEnv :=
  { cq := .error 12, offsets := .ok (), fill := .ok (), comp := .ok () }

/-- A sample interface context: interface 1, queue 0, root namespace. -/
def sampleCtx : IfCtx := { ifindex := 1, queue_id := 0, netnscookie := 1 }

/-- A sample UMEM: frame size 4 over a 10-byte region (2 whole frames). -/
def sampleUmem : Umem :=
  { config := { fill_size := 8, complete_size := 8, frame_size := 4,
                headroom := 0, flags := 0 }
    area_size := 10 }

/-- Bytes of the C string `"eth0"` with its terminating NUL. -/
def eth0Name : List Nat := [101, 116, 104, 48, 0]

/-- A socket configuration with neither an rx nor a tx ring size. -/
def noRingConfig : SocketConfig :=
  { rx_size := none, tx_size := none, bind_flags := 0 }

/-- Helper: `Umem::frame` returns `none` exactly when the requested chunk
does not fit in the area. -/
theorem frame_none_iff (u : Umem) (idx : Nat) :
    u.frame idx = none ↔
      u.area_size < u.config.frame_size * idx + u.config.frame_size := by
  have heq : u.frame idx =
      if optLtSome (checked_sub u.area_size u.config.frame_size)
          (u.config.frame_size * idx) then none
      else some { offset := u.config.frame_size * idx, len := u.config.frame_size } :=
    rfl
  rw [heq]
  generalize u.config.frame_size * idx = off
  by_cases hle : u.config.frame_size ≤ u.area_size <;>
    by_cases hlt : u.area_size - u.config.frame_size < off <;>
      simp [optLtSome, checked_sub, hle, hlt] <;> omega

/-- Helper: when the chunk fits, `Umem::frame` returns exactly the chunk with
offset `frame_size * idx` and length `frame_size`. -/
theorem frame_some_of_fits (u : Umem) (idx : Nat)
    (h : u.config.frame_size * idx + u.config.frame_size ≤ u.area_size) :
    u.frame idx =
      some { offset := u.config.frame_size * idx, len := u.config.frame_size } := by
  have heq : u.frame idx =
      if optLtSome (checked_sub u.area_size u.config.frame_size)
          (u.config.frame_size * idx) then none
      else some { offset := u.config.frame_size * idx, len := u.config.frame_size } :=
    rfl
  rw [heq]
  have hle : u.config.frame_size ≤ u.area_size := by omega
  have hlt : ¬(u.area_size - u.config.frame_size < u.config.frame_size * idx) := by
    omega
  simp [optLtSome, checked_sub, hle, hlt]

/-- Helper: `Umem::frame` succeeds exactly when the chunk fits. -/
theorem frame_isSome_iff (u : Umem) (idx : Nat) :
    (u.frame idx).isSome ↔
      u.config.frame_size * idx + u.config.frame_size ≤ u.area_size := by
  constructor
  · intro h
    by_contra hc
    have : u.frame idx = none := (frame_none_iff u idx).mpr (by omega)
    rw [this] at h
    simp at h
  · intro h
    rw [frame_some_of_fits u idx h]
    rfl

/-- C5: for a UMEM with frame size `f` and region length `L`, `frame idx`
returns the chunk with offset exactly `f * idx` (64-bit exact) and length `f`
precisely when `[f*idx, f*idx + f)` fits inside the region, returns `none`
otherwise, and in particular every index at or above `⌈L/f⌉` yields
`none`. -/
theorem frame_spec (u : Umem) (idx : Nat) (hf : 0 < u.config.frame_size) :
    (u.frame idx =
        some { offset := u.config.frame_size * idx, len := u.config.frame_size } ↔
      u.config.frame_size * idx + u.config.frame_size ≤ u.area_size) ∧
    (u.frame idx = none ↔
      u.area_size < u.config.frame_size * idx + u.config.frame_size) ∧
    ((u.area_size + u.config.frame_size - 1) / u.config.frame_size ≤ idx →
      u.frame idx = none) := by
  refine ⟨?_, frame_none_iff u idx, ?_⟩
  · constructor
    · intro h
      by_contra hc
      rw [(frame_none_iff u idx).mpr (by omega)] at h
      exact Option.noConfusion h
    · exact frame_some_of_fits u idx
  · intro hceil
    refine (frame_none_iff u idx).mpr ?_
    by_contra hc
    have hfit : u.config.frame_size * idx + u.config.frame_size ≤ u.area_size := by
      omega
    have h1 : idx + 1 ≤ u.area_size / u.config.frame_size := by
      rw [Nat.le_div_iff_mul_le hf]
      calc (idx + 1) * u.config.frame_size
          = u.config.frame_size * idx + u.config.frame_size := by ring
        _ ≤ u.area_size := hfit
    have h2 : u.area_size / u.config.frame_size ≤
        (u.area_size + u.config.frame_size - 1) / u.config.frame_size :=
      Nat.div_le_div_right (by omega)
    omega

/-- Witness for C5 at the sample UMEM (frame size 4, region 10 bytes):
index 1 fits with offset 4, index 2 is rejected, and so is the ceiling
index 3. -/
theorem frame_spec_witness :
    (sampleUmem.frame 1 =
        some { offset := sampleUmem.config.frame_size * 1,
               len := sampleUmem.config.frame_size } ↔
      sampleUmem.config.frame_size * 1 + sampleUmem.config.frame_size ≤
        sampleUmem.area_size) ∧
    (sampleUmem.frame 1 = none ↔
      sampleUmem.area_size <
        sampleUmem.config.frame_size * 1 + sampleUmem.config.frame_size) ∧
    ((sampleUmem.area_size + sampleUmem.config.frame_size - 1) /
        sampleUmem.config.frame_size ≤ 1 →
      sampleUmem.frame 1 = none) :=
  frame_spec sampleUmem 1 (by decide)

/-- C10: when `L / f` fits in a `u32`, the frame accessor and the frame
counter agree: `frame idx` is `some` exactly for `idx < len_frames`, and
`len_frames` is the floor of `L / f`. -/
theorem frame_len_frames_agree (u : Umem) (idx : Nat)
    (hf : 0 < u.config.frame_size)
    (hfit : u.area_size / u.config.frame_size < U32_MOD) :
    ((u.frame idx).isSome ↔ idx < u.len_frames) ∧
    u.len_frames = u.area_size / u.config.frame_size := by
  have hlen : u.len_frames = u.area_size / u.config.frame_size := by
    unfold Umem.len_frames
    have : u.area_size / u.config.frame_size ≤ U32_MOD - 1 := by omega
    omega
  refine ⟨?_, hlen⟩
  rw [frame_isSome_iff, hlen]
  constructor
  · intro h
    have : idx + 1 ≤ u.area_size / u.config.frame_size := by
      rw [Nat.le_div_iff_mul_le hf]
      calc (idx + 1) * u.config.frame_size
          = u.config.frame_size * idx + u.config.frame_size := by ring
        _ ≤ u.area_size := h
    omega
  · intro h
    have h1 : idx + 1 ≤ u.area_size / u.config.frame_size := by omega
    have := (Nat.le_div_iff_mul_le hf).mp h1
    calc u.config.frame_size * idx + u.config.frame_size
        = (idx + 1) * u.config.frame_size := by ring
      _ ≤ u.area_size := this

/-- Witness for C10 at the sample UMEM: `len_frames = 2` and index 1 is the
last accessible frame. -/
theorem frame_len_frames_agree_witness :
    (((sampleUmem.frame 1).isSome ↔ 1 < sampleUmem.len_frames) ∧
      sampleUmem.len_frames = sampleUmem.area_size / sampleUmem.config.frame_size) ∧
    (((sampleUmem.frame 2).isSome ↔ 2 < sampleUmem.len_frames) ∧
      sampleUmem.len_frames = sampleUmem.area_size / sampleUmem.config.frame_size) :=
  ⟨frame_len_frames_agree sampleUmem 1 (by decide) (by decide),
   frame_len_frames_agree sampleUmem 2 (by decide) (by decide)⟩

/-- Helper: duplicate acquisition fails with `EINVAL` and returns the tracker
untouched. -/
theorem fq_cq_dup (tracker : ControlSet) (ctx : IfCtx) (env : FqCqEnv)
    (h : ctx ∈ tracker) :
    fq_cq tracker ctx env = (.error EINVAL, tracker) := by
  simp [fq_cq, csInsert, h]

/-- Helper: when the `IfCtx` is fresh but a kernel step fails, the error is
propagated and the provisional insertion is removed, restoring the tracker. -/
theorem fq_cq_fail_restores (tracker : ControlSet) (ctx : IfCtx) (env : FqCqEnv)
    (h : ctx ∉ tracker) (hfail : env.allOk = false) :
    (fq_cq tracker ctx env).2 = tracker ∧
    ∃ e, (fq_cq tracker ctx env).1 = Except.error e := by
  rcases env with ⟨cq, offs, fill, comp⟩
  cases cq <;> cases offs <;> cases fill <;> cases comp <;>
    simp_all [fq_cq, csInsert, csRemove, FqCqEnv.allOk]

/-- Helper: when the `IfCtx` is fresh and every kernel step succeeds, the
call succeeds and the `IfCtx` stays in the tracker. -/
theorem fq_cq_ok_of_allOk (tracker : ControlSet) (ctx : IfCtx) (env : FqCqEnv)
    (h : ctx ∉ tracker) (hok : env.allOk = true) :
    fq_cq tracker ctx env = (.ok (), ctx :: tracker) := by
  rcases env with ⟨cq, offs, fill, comp⟩
  cases cq <;> cases offs <;> cases fill <;> cases comp <;>
    simp_all [fq_cq, csInsert, FqCqEnv.allOk]

/-- Helper: the call succeeds exactly for a fresh `IfCtx` in an all-success
environment. -/
theorem fq_cq_fst_ok_iff (tracker : ControlSet) (ctx : IfCtx) (env : FqCqEnv) :
    (fq_cq tracker ctx env).1 = .ok () ↔
      env.allOk = true ∧ ctx ∉ tracker := by
  by_cases hc : ctx ∈ tracker
  · rcases env with ⟨cq, offs, fill, comp⟩
    cases cq <;> cases offs <;> cases fill <;> cases comp <;>
      simp_all [fq_cq, csInsert, FqCqEnv.allOk]
  · rcases env with ⟨cq, offs, fill, comp⟩
    cases cq <;> cases offs <;> cases fill <;> cases comp <;>
      simp_all [fq_cq, csInsert, FqCqEnv.allOk]

/-- Helper: the tracker after the call gains the `IfCtx` on success and is
unchanged otherwise. -/
theorem fq_cq_snd (tracker : ControlSet) (ctx : IfCtx) (env : FqCqEnv) :
    (fq_cq tracker ctx env).2 =
      if env.allOk && !(decide (ctx ∈ tracker)) then ctx :: tracker else tracker := by
  by_cases hc : ctx ∈ tracker
  · rcases env with ⟨cq, offs, fill, comp⟩
    cases cq <;> cases offs <;> cases fill <;> cases comp <;>
      simp_all [fq_cq, csInsert, csRemove, FqCqEnv.allOk]
  · rcases env with ⟨cq, offs, fill, comp⟩
    cases cq <;> cases offs <;> cases fill <;> cases comp <;>
      simp_all [fq_cq, csInsert, csRemove, FqCqEnv.allOk]

/-- C3: acquiring a device queue for an `IfCtx` already present in the
tracker fails with `EINVAL` and leaves the tracker unchanged; and whenever a
later step (fill/completion sizing, offsets query, or ring mapping) fails,
the provisionally inserted `IfCtx` is removed before the error is
returned. -/
theorem fq_cq_error_handling (tracker : ControlSet) (ctx : IfCtx) (env : FqCqEnv) :
    (ctx ∈ tracker → fq_cq tracker ctx env = (.error EINVAL, tracker)) ∧
    (ctx ∉ tracker → env.allOk = false →
      (fq_cq tracker ctx env).2 = tracker ∧
      ∃ e, (fq_cq tracker ctx env).1 = Except.error e) :=
  ⟨fun h => fq_cq_dup tracker ctx env h,
   fun h hfail => fq_cq_fail_restores tracker ctx env h hfail⟩

/-- Witness for C3: a duplicate acquisition on `[sampleCtx]` fails with
`EINVAL` leaving the tracker as-is, and a failing `configure_cq` on an empty
tracker restores the empty tracker. -/
theorem fq_cq_error_handling_witness :
    fq_cq [sampleCtx] sampleCtx envAllOk = (.error EINVAL, [sampleCtx]) ∧
    ((fq_cq [] sampleCtx envCqFail).2 = [] ∧
      ∃ e, (fq_cq [] sampleCtx envCqFail).1 = Except.error e) :=
  ⟨(fq_cq_error_handling [sampleCtx] sampleCtx envAllOk).1 (by decide),
   (fq_cq_error_handling [] sampleCtx envCqFail).2 (by decide) (by decide)⟩

/-- Invariant tying a UMEM's tracker to its live device queues: no duplicate
live queue, no duplicate tracker entry, and every live queue's `IfCtx` is
tracked. -/
def QueueInv (s : QueueSysState) : Prop :=
  s.live.Nodup ∧ s.tracker.Nodup ∧ ∀ c ∈ s.live, c ∈ s.tracker

/-- Helper: one device-queue operation preserves the tracker/live-queue
invariant. -/
theorem queueStep_inv (s : QueueSysState) (op : QueueOp) (h : QueueInv s) :
    QueueInv (queueStep s op) := by
  obtain ⟨hlive, htr, hsub⟩ := h
  cases op with
  | acquire ctx env =>
    rcases hfq : fq_cq s.tracker ctx env with ⟨res, tr⟩
    cases res with
    | ok u =>
      cases u
      have hok : (fq_cq s.tracker ctx env).1 = .ok () := by rw [hfq]
      obtain ⟨henv, hmem⟩ := (fq_cq_fst_ok_iff s.tracker ctx env).mp hok
      have htr' : tr = ctx :: s.tracker := by
        have := fq_cq_snd s.tracker ctx env
        rw [hfq] at this
        simpa [henv, hmem] using this
      subst htr'
      refine ⟨?_, ?_, ?_⟩
      · simp only [queueStep, hfq]
        exact List.nodup_cons.mpr ⟨fun hc => hmem (hsub ctx hc), hlive⟩
      · simp only [queueStep, hfq]
        exact List.nodup_cons.mpr ⟨hmem, htr⟩
      · simp only [queueStep, hfq]
        intro c hc
        rcases List.mem_cons.mp hc with hc | hc
        · exact List.mem_cons.mpr (Or.inl hc)
        · exact List.mem_cons.mpr (Or.inr (hsub c hc))
    | error e =>
      have hne : (fq_cq s.tracker ctx env).1 ≠ .ok () := by
        rw [hfq]; intro hcon; exact Except.noConfusion hcon
      have htr' : tr = s.tracker := by
        have hsnd := fq_cq_snd s.tracker ctx env
        rw [hfq] at hsnd
        by_cases hcond : env.allOk && !(decide (ctx ∈ s.tracker))
        · exfalso
          simp only [Bool.and_eq_true, Bool.not_eq_true', decide_eq_false_iff_not]
            at hcond
          exact hne ((fq_cq_fst_ok_iff s.tracker ctx env).mpr hcond)
        · simpa [hcond] using hsnd
      subst htr'
      exact ⟨by simpa [queueStep, hfq] using hlive,
             by simpa [queueStep, hfq] using htr,
             by simpa [queueStep, hfq] using hsub⟩
  | dropQ ctx =>
    by_cases hc : ctx ∈ s.live
    · refine ⟨?_, ?_, ?_⟩
      · simpa [queueStep, hc] using hlive.erase ctx
      · simpa [queueStep, hc, dropDeviceQueue, csRemove] using htr.erase ctx
      · simp only [queueStep, hc, if_true]
        intro c hcm
        have hmem : c ≠ ctx ∧ c ∈ s.live := (hlive.mem_erase_iff).mp hcm
        exact (List.mem_erase_of_ne hmem.1).mpr (hsub c hmem.2)
    · simpa [queueStep, hc] using ⟨hlive, htr, hsub⟩

/-- Helper: a sequence of device-queue operations preserves the invariant. -/
theorem queueRun_inv (ops : List QueueOp) :
    ∀ s : QueueSysState, QueueInv s → QueueInv (queueRun s ops) := by
  induction ops with
  | nil => intro s h; exact h
  | cons op rest ih =>
    intro s h
    exact ih (queueStep s op) (queueStep_inv s op h)

/-- C9: dropping a device queue removes its `IfCtx` from the owning UMEM's
tracker, a subsequent `fq_cq` for the same `IfCtx` then succeeds (given
successful kernel steps) instead of failing with invalid-argument, and along
any sequence of acquire/drop operations at most one live device queue exists
per `IfCtx`. -/
theorem device_queue_drop_spec (tracker : ControlSet) (ctx : IfCtx)
    (env : FqCqEnv) (ops : List QueueOp) (c : IfCtx) (h : tracker.Nodup) :
    ctx ∉ dropDeviceQueue tracker ctx ∧
    (env.allOk = true →
      fq_cq (dropDeviceQueue tracker ctx) ctx env = (.ok (), ctx :: dropDeviceQueue tracker ctx)) ∧
    (queueRun queueInit ops).live.count c ≤ 1 := by
  have hnot : ctx ∉ dropDeviceQueue tracker ctx := by
    intro hc
    exact absurd ((h.mem_erase_iff).mp hc).1 (by simp)
  refine ⟨hnot, ?_, ?_⟩
  · intro hok
    exact fq_cq_ok_of_allOk _ ctx env hnot hok
  · have hinv : QueueInv (queueRun queueInit ops) :=
      queueRun_inv ops queueInit ⟨List.nodup_nil, List.nodup_nil, by simp [queueInit]⟩
    exact List.nodup_iff_count_le_one.mp hinv.1 c

/-- Witness for C9: dropping the queue for `sampleCtx` from the tracker
`[sampleCtx]` empties it, re-acquisition succeeds, and a concrete
acquire-drop-acquire trace keeps at most one live queue per `IfCtx`. -/
theorem device_queue_drop_spec_witness :
    sampleCtx ∉ dropDeviceQueue [sampleCtx] sampleCtx ∧
    (envAllOk.allOk = true →
      fq_cq (dropDeviceQueue [sampleCtx] sampleCtx) sampleCtx envAllOk =
        (.ok (), sampleCtx :: dropDeviceQueue [sampleCtx] sampleCtx)) ∧
    (queueRun queueInit
        [QueueOp.acquire sampleCtx envAllOk, QueueOp.dropQ sampleCtx,
         QueueOp.acquire sampleCtx envAllOk]).live.count sampleCtx ≤ 1 :=
  device_queue_drop_spec [sampleCtx] sampleCtx envAllOk
    [QueueOp.acquire sampleCtx envAllOk, QueueOp.dropQ sampleCtx,
     QueueOp.acquire sampleCtx envAllOk] sampleCtx (by decide)

/-- C1 counterexample: with the user handle's fd equal to the UMEM's primary
fd (here both 3) and configured bind flags `XDP_BIND_COPY`, the address
constructed by `Umem::bind` does not contain the caller's bind flag bits at
all — the claim's unconditional "merges the caller's configured bind flag
bits" fails. -/
theorem bind_sockaddr_drops_bind_flags :
    (Umem.bind_sockaddr 3 3 5 0 XDP_BIND_COPY).flags &&& XDP_BIND_COPY = 0 ∧
    XDP_BIND_COPY ≠ 0 ∧
    (Umem.bind_sockaddr 3 3 5 0 XDP_BIND_COPY).flags = 0 := by
  decide

/-- C1 (amended): `Umem::bind` constructs the address with the handle's
interface index and queue id over the zeroed `AF_XDP` default; only when the
handle's fd differs from the UMEM's primary fd are the caller's bind flags
merged (or-ed with the shared-UMEM bit) and the UMEM's primary fd stored;
with equal fds the flags stay 0 and the shared fd field stays 0. -/
theorem bind_sockaddr_spec (umem_fd user_fd ifindex queue_id bind_flags : Nat) :
    (Umem.bind_sockaddr umem_fd user_fd ifindex queue_id bind_flags).ifindex
      = ifindex ∧
    (Umem.bind_sockaddr umem_fd user_fd ifindex queue_id bind_flags).queue_id
      = queue_id ∧
    (Umem.bind_sockaddr umem_fd user_fd ifindex queue_id bind_flags).family
      = AF_XDP ∧
    (if user_fd = umem_fd then
      (Umem.bind_sockaddr umem_fd user_fd ifindex queue_id bind_flags).flags = 0 ∧
      (Umem.bind_sockaddr umem_fd user_fd ifindex queue_id bind_flags).shared_umem_fd = 0
    else
      (Umem.bind_sockaddr umem_fd user_fd ifindex queue_id bind_flags).flags
        = bind_flags ||| XDP_BIND_SHARED_UMEM ∧
      (Umem.bind_sockaddr umem_fd user_fd ifindex queue_id bind_flags).shared_umem_fd
        = umem_fd) := by
  by_cases h : user_fd = umem_fd <;>
    simp [Umem.bind_sockaddr, SockAddrXdp.defaultVal, h]

/-- C2: every query operation — the namespace-cookie read, the mmap-offsets
query, and the statistics query — emits a `close` of the very fd it queries:
each clones the shared `SocketFd` (same fd integer) and passes the clone by
value to `get_opt`, whose implicit drop runs `libc::close` on that
integer. -/
theorem query_closes_shared_fd (fd : Nat) :
    FdEvent.close fd ∈ Socket.netns_query_events fd ∧
    FdEvent.close fd ∈ SocketMmapOffsets.query_events fd ∧
    FdEvent.close fd ∈ XdpStatistics.query_events fd := by
  refine ⟨?_, ?_, ?_⟩ <;>
    simp [Socket.netns_query_events, SocketMmapOffsets.query_events,
      XdpStatistics.query_events, SocketFd.get_opt_events, SocketFd.clone]

/-- C4: on the size-16 ring seeded with cached producer `0xFFFFFFF0`,
reserving up to 32 slots grants all 32 across the `u32` wrap, the granted
slot indices masked by `size - 1` all lie in `[0, 16)`, the slot writes land
at ring positions `0..15` (each position twice, in order), and the real
producer word after `submit 32` equals `0x00000010`. -/
theorem wraparound_reserve_submit :
    (c4Ring.reserve 1 32).1 = 32 ∧
    (c4Ring.reserve 1 32).2.1 = some 0xFFFFFFF0 ∧
    (∀ p ∈ slotPositions (c4Ring.reserve 1 32).2.2 0xFFFFFFF0 32, p < 16) ∧
    slotPositions (c4Ring.reserve 1 32).2.2 0xFFFFFFF0 32 =
      List.range 16 ++ List.range 16 ∧
    ((c4Ring.reserve 1 32).2.2.submit 32).producer = 0x10 := by
  refine ⟨by decide, by decide, by decide, by decide, by decide⟩

/-- C6 counterexample: `User::map_rx` on a handle without a configured rx
size fails carrying raw errno `-22` (`-EINVAL`), while duplicate device-queue
acquisition fails carrying raw errno `22` (`EINVAL`) — not the same raw
value. -/
theorem map_errno_differs_from_fq_cq :
    User.map_rx noRingConfig (.ok ()) = .error (-22) ∧
    User.map_tx noRingConfig (.ok ()) = .error (-22) ∧
    (fq_cq [sampleCtx] sampleCtx envAllOk).1 = .error 22 ∧
    (-22 : Int) ≠ 22 := by
  refine ⟨rfl, rfl, rfl, by decide⟩

/-- C6 (amended): `map_rx` with no configured rx size (and symmetrically
`map_tx` with no tx size) fails before any kernel call with raw errno
`-EINVAL`, the negation of the `EINVAL` carried by the other
invalid-argument failures such as duplicate device-queue acquisition. -/
theorem map_rx_tx_einval_spec (config : SocketConfig) (res : Except Int Unit)
    (tracker : ControlSet) (ctx : IfCtx) (env : FqCqEnv) :
    (config.rx_size = none → User.map_rx config res = .error (-EINVAL)) ∧
    (config.tx_size = none → User.map_tx config res = .error (-EINVAL)) ∧
    (ctx ∈ tracker → (fq_cq tracker ctx env).1 = .error EINVAL) ∧
    (-EINVAL : Int) ≠ EINVAL := by
  refine ⟨?_, ?_, ?_, by decide⟩
  · intro h; simp [User.map_rx, h]
  · intro h; simp [User.map_tx, h]
  · intro h; rw [fq_cq_dup tracker ctx env h]

/-- Witness for C6 (amended) at the configuration with no ring sizes and the
one-element tracker. -/
theorem map_rx_tx_einval_spec_witness :
    User.map_rx noRingConfig (.ok ()) = .error (-EINVAL) ∧
    User.map_tx noRingConfig (.ok ()) = .error (-EINVAL) ∧
    (fq_cq [sampleCtx] sampleCtx envAllOk).1 = .error EINVAL :=
  ⟨(map_rx_tx_einval_spec noRingConfig (.ok ()) [sampleCtx] sampleCtx envAllOk).1 rfl,
   (map_rx_tx_einval_spec noRingConfig (.ok ()) [sampleCtx] sampleCtx envAllOk).2.1 rfl,
   (map_rx_tx_einval_spec noRingConfig (.ok ()) [sampleCtx] sampleCtx envAllOk).2.2.1
     (by decide)⟩

/-- C7: evaluating `IfInfo::from_ifindex` at the failing input — a freshly
invalid `IfInfo` and index 2, with the kernel resolving index 2 to the name
`"eth0"` — succeeds but leaves the stored interface index at its stale value
0 instead of 2: the source writes only the name buffer and never assigns
`self.ctx.ifindex`. -/
theorem from_ifindex_ignores_index :
    IfInfo.from_ifindex IfInfo.invalid 2 (some eth0Name) 0 =
      .ok { ctx := { ifindex := 0, queue_id := 0, netnscookie := 0 },
            ifname := [101, 116, 104, 48, 0, 0, 0, 0, 0, 0, 0, 0, 0, 0, 0, 0] } ∧
    (0 : Nat) ≠ 2 := by
  refine ⟨rfl, by decide⟩

/-- C8 counterexample: on the all-heads-at-5 ring, `reserve(20..=32)` returns
0 yet does have a side effect — the refresh inside `count_free` rewrites the
cached consumer head from 5 to `consumer + size = 21`. -/
theorem reserve_refresh_not_side_effect_free :
    (c8Ring.reserve 20 32).1 = 0 ∧
    (c8Ring.reserve 20 32).2.2.cached_consumer = 21 ∧
    c8Ring.cached_consumer = 5 ∧
    (21 : Nat) ≠ 5 := by
  refine ⟨by decide, by decide, rfl, by decide⟩

/-- C8 (amended): a `reserve(min..=max)` whose free count after the refresh
is below `min` returns 0 and leaves the cached producer head and both
kernel-visible head words unchanged, but the cached consumer head has been
refreshed to `consumer + size` (mod `2^32`), which may differ from its
previous value. -/
theorem reserve_insufficient_spec (r : XskRing) (start stop : Nat)
    (h : (r.count_free start).1 < start) :
    r.reserve start stop = (0, none, (r.count_free start).2) ∧
    (r.count_free start).2.cached_producer = r.cached_producer ∧
    (r.count_free start).2.producer = r.producer ∧
    (r.count_free start).2.consumer = r.consumer ∧
    (r.count_free start).2.cached_consumer = wadd r.consumer r.size := by
  have hrefresh : ¬ (start ≤ wsub r.cached_consumer r.cached_producer) := by
    intro hle
    have : (r.count_free start).1 = wsub r.cached_consumer r.cached_producer := by
      simp [XskRing.count_free, hle]
    omega
  refine ⟨?_, ?_, ?_, ?_, ?_⟩ <;>
    simp [XskRing.reserve, XskRing.count_free, hrefresh, h,
      if_pos (by simpa [XskRing.count_free, hrefresh] using h)]

/-- Witness for C8 (amended) at the all-heads-at-5 ring with `min = 20`:
the reserve returns 0, the producer-side and kernel words are untouched, and
the cached consumer is the refreshed `5 + 16 = 21`. -/
theorem reserve_insufficient_spec_witness :
    c8Ring.reserve 20 32 = (0, none, (c8Ring.count_free 20).2) ∧
    (c8Ring.count_free 20).2.cached_producer = c8Ring.cached_producer ∧
    (c8Ring.count_free 20).2.producer = c8Ring.producer ∧
    (c8Ring.count_free 20).2.consumer = c8Ring.consumer ∧
    (c8Ring.count_free 20).2.cached_consumer = wadd c8Ring.consumer c8Ring.size :=
  reserve_insufficient_spec c8Ring 20 32 (by decide)

end Xdpilone
